import Mathlib

/-!
Verification of the `dolores-assistant` conversational orchestrator
(`apps/dolores-assistant/src/dolores_assistant/pipeline.py` and `routes.py`).

The Python source is shallowly embedded: pure functions become Lean
functions, the WebSocket session loop becomes a recursive function over the
list of inbound messages, failures that Python signals by `None` become
`Option`, and exceptions escaping a function become an `Except`-style error
value.  Downstream services (STT, Brain, TTS) are parameters of the model,
exactly as they are external HTTP collaborators of the source.
-/

namespace Dolores

/-! ## Sentence segmentation (`pipeline.split_sentences`)

The source splits on the regex `(?<=[.!?])\s+` — a maximal whitespace run
whose first character is immediately preceded by `.`, `!` or `?` — then
strips every fragment and drops the empty ones. -/

/-- Characters the Python `\s` class of `str` patterns and `str.strip()`
treat as whitespace: both are `Py_UNICODE_ISSPACE`, true exactly for
U+0009–U+000D, U+001C–U+001F, space, U+0085, U+00A0, U+1680,
U+2000–U+200A, U+2028, U+2029, U+202F, U+205F and U+3000. -/
def pyWS (c : Char) : Bool :=
  (9 ≤ c.toNat && c.toNat ≤ 13) ||
  (28 ≤ c.toNat && c.toNat ≤ 31) ||
  c.toNat = 32 ||
  c.toNat = 0x85 || c.toNat = 0xa0 || c.toNat = 0x1680 ||
  (0x2000 ≤ c.toNat && c.toNat ≤ 0x200a) ||
  c.toNat = 0x2028 || c.toNat = 0x2029 || c.toNat = 0x202f ||
  c.toNat = 0x205f || c.toNat = 0x3000

/-- The sentence-terminal punctuation class `[.!?]` of `_SENTENCE_RE`. -/
def isPunct (c : Char) : Bool :=
  c = '.' || c = '!' || c = '?'

/-- Python `str.strip()`: drop whitespace from both ends. -/
def pyStrip (l : List Char) : List Char :=
  ((l.dropWhile pyWS).reverse.dropWhile pyWS).reverse

/-- One pass of `re.split(r'(?<=[.!?])\s+', text)`.  `prevP` records whether
the previously scanned character was in `[.!?]` (the lookbehind); `cur` is
the fragment accumulated since the last separator.  A whitespace character
preceded by punctuation starts a separator, which greedily consumes the
whole whitespace run. -/
def reSplitAux (prevP : Bool) (l : List Char) (cur : List Char) :
    List (List Char) :=
  match l with
  | [] => [cur]
  | c :: rest =>
    if prevP && pyWS c then
      cur :: reSplitAux false (rest.dropWhile pyWS) []
    else
      reSplitAux (isPunct c) rest (cur ++ [c])
termination_by l.length
decreasing_by
  · simp only [List.length_cons]
    exact Nat.lt_succ_of_le (List.Sublist.length_le (List.dropWhile_sublist pyWS))
  · simp only [List.length_cons]
    exact Nat.lt_succ_self rest.length

/-- Model of `_SENTENCE_RE.split(text)`. -/
def reSplit (l : List Char) : List (List Char) :=
  reSplitAux false l []

/-- Model of `split_sentences` from `pipeline.py`, on character lists:
`[s.strip() for s in _SENTENCE_RE.split(text) if s.strip()]`. -/
def splitSentencesL (l : List Char) : List (List Char) :=
  ((reSplit l).map pyStrip).filter (fun s => !s.isEmpty)

/-- Wrapper giving `split_sentences` the exact `String` signature of the source. -/
def split_sentences (s : String) : List String :=
  (splitSentencesL s.data).map String.mk

/-- Predicate `chainOk prevP l`: scanning `l` with lookbehind state `prevP` never
meets a whitespace character immediately preceded by `[.!?]`, i.e. the
regex has no match inside `l`. -/
def chainOk (prevP : Bool) : List Char → Bool
  | [] => true
  | c :: rest => !(prevP && pyWS c) && chainOk (isPunct c) rest

/-- The lookbehind state after scanning `l` starting from `prevP`. -/
def lastP (prevP : Bool) : List Char → Bool
  | [] => prevP
  | c :: rest => lastP (isPunct c) rest

theorem chainOk_append (a b : List Char) (prevP : Bool) :
    chainOk prevP (a ++ b) = (chainOk prevP a && chainOk (lastP prevP a) b) := by
  induction a generalizing prevP with
  | nil => simp [chainOk, lastP]
  | cons c rest ih => simp [chainOk, lastP, ih, Bool.and_assoc]

theorem lastP_append (a b : List Char) (prevP : Bool) :
    lastP prevP (a ++ b) = lastP (lastP prevP a) b := by
  induction a generalizing prevP with
  | nil => rfl
  | cons c rest ih => simp [lastP, ih]

theorem isPunct_not_ws {c : Char} (h : isPunct c = true) : pyWS c = false := by
  simp only [isPunct, Bool.or_eq_true, decide_eq_true_eq] at h
  rcases h with (h | h) | h <;> subst h <;> decide

theorem pyWS_not_punct {c : Char} (h : pyWS c = true) : isPunct c = false := by
  cases hip : isPunct c
  · rfl
  · rw [isPunct_not_ws hip] at h
    exact absurd h (by decide)

/-- Scanning a match-free block appends it to the current fragment. -/
theorem reSplitAux_chainOk (f : List Char) :
    ∀ (rest cur : List Char) (prevP : Bool), chainOk prevP f = true →
    reSplitAux prevP (f ++ rest) cur = reSplitAux (lastP prevP f) rest (cur ++ f) := by
  induction f with
  | nil => intro rest cur prevP _; simp [lastP]
  | cons c f' ih =>
    intro rest cur prevP h
    simp only [chainOk, Bool.and_eq_true, Bool.not_eq_true'] at h
    rw [List.cons_append, reSplitAux, if_neg (by simp [h.1])]
    rw [ih rest (cur ++ [c]) (isPunct c) h.2]
    simp [lastP]

theorem dropWhile_append_all {p : Char → Bool} (a b : List Char)
    (h : ∀ x ∈ a, p x = true) :
    (a ++ b).dropWhile p = b.dropWhile p := by
  induction a with
  | nil => rfl
  | cons c rest ih =>
    rw [List.cons_append, List.dropWhile_cons, if_pos (h c (by simp))]
    exact ih (fun x hx => h x (by simp [hx]))

/-- A whitespace run scanned in punctuation-lookbehind state is a separator:
it closes the current fragment and is consumed entirely. -/
theorem reSplitAux_sep (w rest cur : List Char) (hw : w ≠ [])
    (hall : ∀ x ∈ w, pyWS x = true) (hrest : rest.dropWhile pyWS = rest) :
    reSplitAux true (w ++ rest) cur = cur :: reSplitAux false rest [] := by
  match w, hw with
  | c :: w', _ =>
    rw [List.cons_append, reSplitAux, if_pos (by simp [hall c (by simp)])]
    rw [dropWhile_append_all w' rest (fun x hx => hall x (by simp [hx])), hrest]

/-- One clause of a well-punctuated text: the clause body `c`, its terminal
punctuation mark `p`, and the whitespace run `w` that follows it. -/
structure Clause where
  c : List Char
  p : Char
  w : List Char

/-- The text of one clause: body, terminal punctuation, trailing whitespace. -/
def Clause.text (g : Clause) : List Char := g.c ++ [g.p] ++ g.w

/-- Whether a fragment does not begin with whitespace. -/
def headNotWS : List Char → Bool
  | [] => true
  | h :: _ => !pyWS h

/-- A well-formed clause: non-empty body starting with a non-whitespace
character and containing no sentence boundary (no `[.!?]` immediately
followed by whitespace), a `[.!?]` terminator, and a non-empty whitespace
run after it. -/
def GoodClause (g : Clause) : Prop :=
  g.c ≠ [] ∧ headNotWS g.c = true ∧
    chainOk false g.c = true ∧ isPunct g.p = true ∧
    g.w ≠ [] ∧ g.w.all pyWS = true

instance : DecidablePred GoodClause := fun g => by
  unfold GoodClause; infer_instance

theorem join_clause_dropWhile (gs : List Clause)
    (h : ∀ g ∈ gs, GoodClause g) :
    ((gs.map Clause.text).flatten).dropWhile pyWS = (gs.map Clause.text).flatten := by
  match gs with
  | [] => rfl
  | g :: gs' =>
    obtain ⟨hc, hhd, -, -, -, -⟩ := h g (by simp)
    match hcc : g.c with
    | [] => exact absurd hcc hc
    | a :: t =>
      have ha : pyWS a = false := by
        rw [hcc] at hhd; simpa [headNotWS] using hhd
      simp only [List.map_cons, List.flatten_cons, Clause.text, hcc]
      rw [List.append_assoc, List.append_assoc, List.cons_append,
        List.dropWhile_cons, if_neg (by simp [ha])]

theorem reSplit_clauses (gs : List Clause) (h : ∀ g ∈ gs, GoodClause g) :
    reSplitAux false ((gs.map Clause.text).flatten) [] =
      gs.map (fun g => g.c ++ [g.p]) ++ [[]] := by
  induction gs with
  | nil => simp [reSplitAux]
  | cons g gs' ih =>
    obtain ⟨hc, hhd, hchain, hp, hw, hall⟩ := h g (by simp)
    simp only [List.map_cons, List.flatten_cons, Clause.text]
    have hchain' : chainOk false (g.c ++ [g.p]) = true := by
      rw [chainOk_append]
      simp [hchain, chainOk, isPunct_not_ws hp]
    have hlast : lastP false (g.c ++ [g.p]) = true := by
      rw [lastP_append]; simp [lastP, hp]
    rw [List.append_assoc, List.append_assoc, ← List.append_assoc g.c,
      reSplitAux_chainOk (g.c ++ [g.p]) (g.w ++ (gs'.map Clause.text).flatten)
        [] false hchain', hlast, List.nil_append]
    rw [reSplitAux_sep g.w ((gs'.map Clause.text).flatten) (g.c ++ [g.p]) hw
      (fun x hx => by simpa using List.all_eq_true.mp hall x hx)
      (join_clause_dropWhile gs' (fun x hx => h x (by simp [hx])))]
    rw [ih (fun x hx => h x (by simp [hx]))]
    simp

theorem pyStrip_eq_self (l : List Char)
    (hhd : ∀ h, l.head? = some h → pyWS h = false)
    (hlast : ∀ h, l.getLast? = some h → pyWS h = false) :
    pyStrip l = l := by
  unfold pyStrip
  match hl : l with
  | [] => rfl
  | a :: t =>
    rw [List.dropWhile_cons, if_neg (by simp [hhd a rfl])]
    match hr : (a :: t).reverse with
    | [] => exact absurd hr (by simp)
    | b :: r =>
      have hb : (a :: t).getLast? = some b := by
        rw [← List.head?_reverse, hr]; rfl
      rw [List.dropWhile_cons, if_neg (by simp [hlast b hb])]
      rw [← hr, List.reverse_reverse]

theorem pyStrip_append_punct (c : List Char) (p : Char)
    (hhd : headNotWS c = true)
    (hp : isPunct p = true) :
    pyStrip (c ++ [p]) = c ++ [p] := by
  refine pyStrip_eq_self (c ++ [p]) ?_ ?_
  · intro h hh
    match hc : c with
    | [] => simp at hh; rw [← hh]; exact isPunct_not_ws hp
    | a :: t =>
      simp at hh
      rw [← hh]; simpa [headNotWS] using hhd
  · intro h hh
    simp at hh; rw [← hh]; exact isPunct_not_ws hp

/-- Splitting a text made of well-formed punctuated clauses yields exactly
the clauses with their terminators, already trimmed, in order. -/
theorem splitSentencesL_clauses (gs : List Clause)
    (h : ∀ g ∈ gs, GoodClause g) :
    splitSentencesL ((gs.map Clause.text).flatten) =
      gs.map (fun g => g.c ++ [g.p]) := by
  unfold splitSentencesL reSplit
  rw [reSplit_clauses gs h]
  rw [List.map_append, List.filter_append]
  have h1 : (gs.map (fun g => g.c ++ [g.p])).map pyStrip =
      gs.map (fun g => g.c ++ [g.p]) := by
    rw [List.map_map]
    refine List.map_congr_left ?_
    intro g hg
    obtain ⟨-, hhd, -, hp, -, -⟩ := h g hg
    exact pyStrip_append_punct g.c g.p hhd hp
  rw [h1]
  have h2 : ∀ g ∈ gs, (fun s => !s.isEmpty) (g.c ++ [g.p]) = true := by
    intro g _; simp
  rw [List.filter_eq_self.mpr (by intro a ha; obtain ⟨g, hg, rfl⟩ := List.mem_map.mp ha; exact h2 g hg)]
  simp [pyStrip, List.filter]

/-- With no sentence boundary in the text, the regex split returns the
whole text as the only fragment. -/
theorem reSplit_no_boundary (t : List Char) (h : chainOk false t = true) :
    reSplit t = [t] := by
  unfold reSplit
  have := reSplitAux_chainOk t [] [] false h
  rw [List.append_nil] at this
  rw [this]
  simp [reSplitAux]

theorem splitSentencesL_no_boundary (t : List Char)
    (h : chainOk false t = true) (hne : pyStrip t ≠ []) :
    splitSentencesL t = [pyStrip t] := by
  unfold splitSentencesL
  rw [reSplit_no_boundary t h]
  have he : (pyStrip t).isEmpty = false := by
    simpa [List.isEmpty_iff] using hne
  simp [List.filter, he]

theorem chainOk_all_ws (t : List Char) (h : ∀ c ∈ t, pyWS c = true) :
    chainOk false t = true := by
  induction t with
  | nil => rfl
  | cons c rest ih =>
    have hc := h c (by simp)
    simp only [chainOk, Bool.false_and, Bool.not_false, Bool.true_and]
    rw [pyWS_not_punct hc]
    exact ih (fun x hx => h x (by simp [hx]))

theorem pyStrip_all_ws (t : List Char) (h : ∀ c ∈ t, pyWS c = true) :
    pyStrip t = [] := by
  unfold pyStrip
  have : t.dropWhile pyWS = [] := by
    have := dropWhile_append_all t [] h
    rwa [List.append_nil] at this
  rw [this]
  rfl

theorem splitSentencesL_all_ws (t : List Char) (h : ∀ c ∈ t, pyWS c = true) :
    splitSentencesL t = [] := by
  unfold splitSentencesL
  rw [reSplit_no_boundary t (chainOk_all_ws t h)]
  simp [pyStrip_all_ws t h, List.filter]

/-- C4: `split_sentences` is a pure deterministic function: a text composed
of N well-formed clauses, each terminated by `.`, `!` or `?` followed by
whitespace, splits into exactly those N clauses (with terminator), trimmed,
non-empty, in original order; a text containing no terminal punctuation
followed by whitespace and not whitespace-only yields the single trimmed
input; an empty or whitespace-only text yields the empty list. -/
theorem c4_split_sentences :
    (∀ gs : List Clause, (∀ g ∈ gs, GoodClause g) →
      splitSentencesL ((gs.map Clause.text).flatten) =
          gs.map (fun g => g.c ++ [g.p]) ∧
      (splitSentencesL ((gs.map Clause.text).flatten)).length = gs.length ∧
      (∀ s ∈ splitSentencesL ((gs.map Clause.text).flatten),
        s ≠ [] ∧ pyStrip s = s)) ∧
    (∀ t : List Char, chainOk false t = true → pyStrip t ≠ [] →
      splitSentencesL t = [pyStrip t]) ∧
    (∀ t : List Char, (∀ c ∈ t, pyWS c = true) → splitSentencesL t = []) := by
  refine ⟨?_, splitSentencesL_no_boundary, splitSentencesL_all_ws⟩
  intro gs h
  have heq := splitSentencesL_clauses gs h
  refine ⟨heq, by rw [heq]; simp, ?_⟩
  intro s hs
  rw [heq] at hs
  obtain ⟨g, hg, rfl⟩ := List.mem_map.mp hs
  obtain ⟨-, hhd, -, hp, -, -⟩ := h g hg
  exact ⟨by simp, pyStrip_append_punct g.c g.p hhd hp⟩

/-- Witness for C4 at concrete inputs: a two-clause text, a text without
boundaries, and a whitespace-only text. -/
theorem c4_split_sentences_witness :
    splitSentencesL (([⟨['H', 'i'], '.', [' ']⟩,
        ⟨['G', 'o'], '!', [' ']⟩] : List Clause).map Clause.text).flatten =
      [['H', 'i', '.'], ['G', 'o', '!']] ∧
    splitSentencesL ['o', 'k'] = [pyStrip ['o', 'k']] ∧
    splitSentencesL [' ', ' '] = [] := by
  refine ⟨(c4_split_sentences.1 [⟨['H', 'i'], '.', [' ']⟩,
      ⟨['G', 'o'], '!', [' ']⟩] (by decide)).1, ?_, ?_⟩
  · exact c4_split_sentences.2.1 ['o', 'k'] (by decide) (by decide)
  · exact c4_split_sentences.2.2 [' ', ' '] (by decide)

/-! ## Streaming chat (`ServiceClient.chat_stream`)

The source opens a server-streamed response, iterates its lines, decodes a
JSON event from every line carrying the `data: ` prefix (skipping lines
whose payload fails to decode), and converts any transport exception into a
final `{type: error}` event.  The transport is modelled as the list of
lines delivered plus an optional exception raised after them; `json.loads`
on a payload is modelled by an abstract `decode` function, `none` standing
for `json.JSONDecodeError`. -/

/-- A decoded SSE event dict as used by the session code: the fields it
reads via `event.get(...)`, each `none` when the key is absent. -/
structure StreamEvent where
  type : Option String
  content : Option String
  error : Option String
  conversation_id : Option String
deriving DecidableEq

/-- The event `{"type": "error", "error": str(e)}` yielded on a transport
failure. -/
def errorEvent (e : String) : StreamEvent :=
  ⟨some "error", none, some e, none⟩

/-- The observable behaviour of the streamed HTTP response: the lines
delivered by `resp.aiter_lines()`, then either normal completion
(`failure = none`) or an exception carrying `str(e)`. -/
structure StreamTransport where
  lines : List String
  failure : Option String

/-- Handling of one line: yield the decoded payload of a `data: ` line
(`line.startswith("data: ")` then `json.loads(line[6:])`), skip everything
else, including undecodable payloads. -/
def dataLineEvent (decode : String → Option StreamEvent) (line : String) :
    Option StreamEvent :=
  if "data: ".data.isPrefixOf line.data then
    decode (String.mk (line.data.drop 6))
  else none

/-- Model of `ServiceClient.chat_stream`: the sequence of events the generator
yields for a given transport behaviour. -/
def chat_stream (decode : String → Option StreamEvent) (t : StreamTransport) :
    List StreamEvent :=
  t.lines.filterMap (dataLineEvent decode) ++
    (match t.failure with
     | some e => [errorEvent e]
     | none => [])

/-- An event the consumer's loop treats as terminal. -/
def isTerminal (e : StreamEvent) : Prop :=
  e.type = some "done" ∨ e.type = some "error"

/-- C1 counterexample: a transport that completes normally after
delivering no lines (e.g. the backend closes the stream without sending a
`done` event) yields an event sequence with no terminal event at all, so
the consumer's loop does not always observe a `done` or `error` event. -/
theorem c1_chat_stream_counterexample :
    chat_stream (fun _ => none) ⟨[], none⟩ = [] ∧
    ¬ ∃ e ∈ chat_stream (fun _ => none) ⟨[], none⟩, isTerminal e := by
  refine ⟨rfl, ?_⟩
  rintro ⟨e, he, -⟩
  simp [chat_stream] at he

/-- C1 (amended): `data: ` lines with undecodable payload are skipped
without ending the stream; a transport failure appends a final error event;
and on failure-free completion the yielded events are exactly the decoded
`data: ` lines — so a terminal event is guaranteed whenever the transport
fails, and otherwise exactly when the backend itself emitted one. -/
theorem c1_chat_stream_wellformed :
    (∀ (decode : String → Option StreamEvent) (pre post : List String)
        (bad : String) (f : Option String),
      "data: ".data.isPrefixOf bad.data = true →
      decode (String.mk (bad.data.drop 6)) = none →
      chat_stream decode ⟨pre ++ bad :: post, f⟩ =
        chat_stream decode ⟨pre ++ post, f⟩) ∧
    (∀ (decode : String → Option StreamEvent) (lines : List String)
        (e : String),
      (chat_stream decode ⟨lines, some e⟩).getLast? = some (errorEvent e)) ∧
    (∀ (decode : String → Option StreamEvent) (lines : List String),
      chat_stream decode ⟨lines, none⟩ =
        lines.filterMap (dataLineEvent decode)) := by
  refine ⟨?_, ?_, ?_⟩
  · intro decode pre post bad f hstart hdec
    simp [chat_stream, List.filterMap_append, List.filterMap_cons,
      dataLineEvent, hstart, hdec]
  · intro decode lines e
    simp [chat_stream, List.getLast?_concat]
  · intro decode lines
    simp [chat_stream]

/-- Witness for C1 (amended) at concrete transports. -/
theorem c1_chat_stream_witness :
    chat_stream (fun _ => none) ⟨["data: x"], none⟩ =
      chat_stream (fun _ => none) ⟨[], none⟩ ∧
    (chat_stream (fun _ => none) ⟨["hello"], some "boom"⟩).getLast? =
      some (errorEvent "boom") ∧
    chat_stream (fun _ => none) ⟨["hello"], none⟩ =
      ["hello"].filterMap (dataLineEvent (fun _ => none)) :=
  ⟨c1_chat_stream_wellformed.1 (fun _ => none) [] [] "data: x" none
      (by decide) rfl,
    c1_chat_stream_wellformed.2.1 (fun _ => none) ["hello"] "boom",
    c1_chat_stream_wellformed.2.2 (fun _ => none) ["hello"]⟩

/-! ## One conversational turn (`routes._process_and_respond`) -/

/-- A frame sent to the WebSocket client. -/
inductive Frame where
  | sessionCreated (session_id conversation_id : String)
  | transcriptionFinal (text : String)
  | responseText (content : String)
  | responseEnd (full_text : String)
  | error (code message : String)
  | audio (bytes : List Nat)
deriving DecidableEq

/-- The trailing TTS phase of a turn: for `mode != "text"` and non-blank
accumulated text, synthesize each sentence and forward the non-empty audio
results (`if audio:` skips both `None` and empty bytes). -/
def ttsFrames (mode : String) (synth : String → Option (List Nat))
    (fullText : String) : List Frame :=
  if mode ≠ "text" ∧ pyStrip fullText.data ≠ [] then
    ((splitSentencesL fullText.data).filterMap (fun s =>
      match synth (String.mk s) with
      | some a => if a.isEmpty then none else some a
      | none => none)).map Frame.audio
  else []

/-- The streaming phase of `_process_and_respond`, accumulating
`full_text`: tokens are forwarded and accumulated, a `done` event replaces
the accumulation by its `content` (defaulting to the accumulation), an
`error` event aborts the turn with a `brain_error` frame, anything else is
ignored. -/
def processTurnGo (mode : String) (synth : String → Option (List Nat)) :
    List StreamEvent → String → List Frame
  | [], fullText => ttsFrames mode synth fullText ++ [Frame.responseEnd fullText]
  | e :: rest, fullText =>
    if e.type = some "token" then
      Frame.responseText (e.content.getD "") ::
        processTurnGo mode synth rest (fullText ++ e.content.getD "")
    else if e.type = some "done" then
      processTurnGo mode synth rest (e.content.getD fullText)
    else if e.type = some "error" then
      [Frame.error "brain_error" (e.error.getD "Unknown error")]
    else processTurnGo mode synth rest fullText

/-- Model of `_process_and_respond`: the frames one turn sends, given the event
stream, the session mode and the synthesis backend. -/
def processTurn (events : List StreamEvent) (mode : String)
    (synth : String → Option (List Nat)) : List Frame :=
  processTurnGo mode synth events ""

/-- Concatenation of the `content` fields of the `response.text` frames. -/
def textConcat : List Frame → String
  | [] => ""
  | Frame.responseText c :: r => c ++ textConcat r
  | _ :: r => textConcat r

/-- The `full_text` fields of the `response.end` frames, in order. -/
def endTexts : List Frame → List String
  | [] => []
  | Frame.responseEnd t :: r => t :: endTexts r
  | _ :: r => endTexts r

/-- Whether a binary audio frame occurs. -/
def hasAudio : List Frame → Bool
  | [] => false
  | Frame.audio _ :: _ => true
  | _ :: r => hasAudio r

/-- Concatenation of the `content` fields of the token events. -/
def tokConcat : List StreamEvent → String
  | [] => ""
  | e :: rest =>
    if e.type = some "token" then e.content.getD "" ++ tokConcat rest
    else tokConcat rest

/-- The `response.text` frames a stream of events produces. -/
def tokenFrames : List StreamEvent → List Frame
  | [] => []
  | e :: rest =>
    if e.type = some "token" then
      Frame.responseText (e.content.getD "") :: tokenFrames rest
    else tokenFrames rest

/-- A stream the chat backend contract promises (§6): no error event, and
every `done` event's `content`, when present, equals the token text
accumulated so far (`acc` is the text accumulated before the stream). -/
def consistentFrom (acc : String) : List StreamEvent → Bool
  | [] => true
  | e :: rest =>
    if e.type = some "token" then consistentFrom (acc ++ e.content.getD "") rest
    else if e.type = some "done" then
      (e.content.getD acc = acc) && consistentFrom acc rest
    else if e.type = some "error" then false
    else consistentFrom acc rest

theorem processTurnGo_text_consistent (synth : String → Option (List Nat))
    (events : List StreamEvent) :
    ∀ acc : String, consistentFrom acc events = true →
    processTurnGo "text" synth events acc =
      tokenFrames events ++ [Frame.responseEnd (acc ++ tokConcat events)] := by
  induction events with
  | nil =>
    intro acc _
    simp [processTurnGo, ttsFrames, tokenFrames, tokConcat]
  | cons e rest ih =>
    intro acc hc
    by_cases ht : e.type = some "token"
    · simp only [consistentFrom, if_pos ht] at hc
      simp only [processTurnGo, if_pos ht, ih (acc ++ e.content.getD "") hc,
        tokenFrames, tokConcat]
      simp [String.append_assoc]
    · by_cases hd : e.type = some "done"
      · simp only [consistentFrom, if_neg ht, if_pos hd,
          Bool.and_eq_true, decide_eq_true_eq] at hc
        simp only [processTurnGo, if_neg ht, if_pos hd, hc.1,
          ih acc hc.2, tokenFrames, tokConcat]
      · by_cases he : e.type = some "error"
        · simp only [consistentFrom, if_neg ht, if_neg hd, if_pos he] at hc
          exact absurd hc (by simp)
        · simp only [consistentFrom, if_neg ht, if_neg hd, if_neg he] at hc
          simp only [processTurnGo, if_neg ht, if_neg hd, if_neg he,
            ih acc hc, tokenFrames, tokConcat]

theorem textConcat_append (a b : List Frame) :
    textConcat (a ++ b) = textConcat a ++ textConcat b := by
  induction a with
  | nil => simp [textConcat]
  | cons f r ih =>
    cases f <;> simp [textConcat, ih, String.append_assoc]

theorem endTexts_append (a b : List Frame) :
    endTexts (a ++ b) = endTexts a ++ endTexts b := by
  induction a with
  | nil => simp [endTexts]
  | cons f r ih => cases f <;> simp [endTexts, ih]

theorem textConcat_tokenFrames (events : List StreamEvent) :
    textConcat (tokenFrames events) = tokConcat events := by
  induction events with
  | nil => rfl
  | cons e rest ih =>
    by_cases ht : e.type = some "token"
    · simp [tokenFrames, if_pos ht, tokConcat, ht, textConcat, ih]
    · simp [tokenFrames, if_neg ht, tokConcat, ht, ih]

theorem endTexts_tokenFrames (events : List StreamEvent) :
    endTexts (tokenFrames events) = [] := by
  induction events with
  | nil => rfl
  | cons e rest ih =>
    by_cases ht : e.type = some "token"
    · simp [tokenFrames, if_pos ht, endTexts, ih]
    · simp [tokenFrames, if_neg ht, ih]

theorem hasAudio_tokenFrames_end (events : List StreamEvent) (t : String) :
    hasAudio (tokenFrames events ++ [Frame.responseEnd t]) = false := by
  induction events with
  | nil => rfl
  | cons e rest ih =>
    by_cases ht : e.type = some "token"
    · simp only [tokenFrames, if_pos ht, List.cons_append, hasAudio]
      exact ih
    · simpa [tokenFrames, if_neg ht] using ih

/-- In `mode = "text"` the TTS phase is skipped and no branch of the turn
ever emits a binary frame, whatever the event stream. -/
theorem hasAudio_processTurnGo_text (synth : String → Option (List Nat))
    (events : List StreamEvent) :
    ∀ acc, hasAudio (processTurnGo "text" synth events acc) = false := by
  induction events with
  | nil =>
    intro acc
    simp only [processTurnGo, ttsFrames]
    rw [if_neg (by simp)]
    rfl
  | cons e rest ih =>
    intro acc
    by_cases ht : e.type = some "token"
    · simp only [processTurnGo, if_pos ht]
      exact ih (acc ++ e.content.getD "")
    · by_cases hd : e.type = some "done"
      · simp only [processTurnGo, if_neg ht, if_pos hd]
        exact ih (e.content.getD acc)
      · by_cases he : e.type = some "error"
        · simp only [processTurnGo, if_neg ht, if_neg hd, if_pos he]
          rfl
        · simp only [processTurnGo, if_neg ht, if_neg hd, if_neg he]
          exact ih acc

/-- C2 (amended): in a `mode = "text"` turn, no binary audio frame is ever
sent, unconditionally; and provided the event stream honours the backend
contract — no error event, and any `done` event's `content` equals the
accumulated token text — the turn ends with exactly one `response.end`
frame whose `full_text` equals the concatenation of the `response.text`
contents.  (Without that proviso the `done` content overrides the
accumulation, see the counterexample.) -/
theorem c2_text_mode_turn (events : List StreamEvent)
    (synth : String → Option (List Nat)) :
    hasAudio (processTurn events "text" synth) = false ∧
    (consistentFrom "" events = true →
      endTexts (processTurn events "text" synth) =
        [textConcat (processTurn events "text" synth)]) := by
  refine ⟨hasAudio_processTurnGo_text synth events "", ?_⟩
  intro h
  unfold processTurn
  rw [processTurnGo_text_consistent synth events "" h]
  have hconcat : textConcat
      (tokenFrames events ++ [Frame.responseEnd ("" ++ tokConcat events)]) =
      tokConcat events := by
    rw [textConcat_append, textConcat_tokenFrames]
    simp [textConcat]
  rw [hconcat, endTexts_append, endTexts_tokenFrames]
  simp [endTexts]

/-! ## The WebSocket session (`routes.conversation_ws`)

The per-connection handler is embedded as a recursive function over the
list of inbound messages (binary audio frames and parsed JSON control
messages), returning both the frames sent to the client and the log of
`chat_stream` calls made — the latter records which `conversation_id`
every turn was made under. -/

/-- Arguments of one `client.chat_stream(...)` invocation. -/
structure ChatCall where
  message : String
  conversation_id : Option String
  provider : String
deriving DecidableEq

/-- The transcription dict returned by `client.transcribe`; the session
reads its `text` field with default `""`. -/
structure Transcription where
  text : Option String
deriving DecidableEq

/-- The three downstream services, as the session consumes them:
`chat_stream` is the decoded event stream for a call, `transcribe` returns
`none` on failure, `synth` takes text and `voice_id` and returns `none` on
failure. -/
structure Backend where
  chatStream : ChatCall → List StreamEvent
  transcribe : List Nat → Option Transcription
  synth : String → String → Option (List Nat)

/-- The mutable locals of `conversation_ws` while the session is active. -/
structure SessionState where
  conversationId : Option String
  voiceId : String
  provider : String
  mode : String
  audioBuffer : List Nat
deriving DecidableEq

/-- One inbound WebSocket message: a binary chunk, or a parsed JSON
control message (its `type` and `text` fields, `none` when absent). -/
inductive Inbound where
  | audioBytes (b : List Nat)
  | control (ty tx : Option String)
deriving DecidableEq

/-- The `while True` receive loop of `conversation_ws`: processes inbound
messages until `session.end` or end of input (peer disconnect), returning
the frames sent and the `chat_stream` calls made. -/
def sessionLoop (B : Backend) : SessionState → List Inbound →
    List Frame × List ChatCall
  | _, [] => ([], [])
  | st, Inbound.audioBytes b :: rest =>
    sessionLoop B {st with audioBuffer := st.audioBuffer ++ b} rest
  | st, Inbound.control ty tx :: rest =>
    let t := ty.getD ""
    if t = "session.end" then ([], [])
    else if t = "audio.start" then
      sessionLoop B {st with audioBuffer := []} rest
    else if t = "audio.end" then
      if st.audioBuffer.isEmpty then
        (Frame.error "no_audio" "No audio data received" ::
            (sessionLoop B st rest).1,
          (sessionLoop B st rest).2)
      else
        match B.transcribe st.audioBuffer with
        | none =>
          (Frame.error "stt_unavailable"
              "Speech recognition failed, please type instead" ::
              (sessionLoop B {st with audioBuffer := []} rest).1,
            (sessionLoop B {st with audioBuffer := []} rest).2)
        | some tr =>
          if pyStrip (tr.text.getD "").data = [] then
            (Frame.transcriptionFinal (tr.text.getD "") ::
                (sessionLoop B {st with audioBuffer := []} rest).1,
              (sessionLoop B {st with audioBuffer := []} rest).2)
          else
            (Frame.transcriptionFinal (tr.text.getD "") ::
                (processTurn
                    (B.chatStream ⟨tr.text.getD "", st.conversationId,
                      st.provider⟩)
                    st.mode (fun s => B.synth s st.voiceId) ++
                  (sessionLoop B {st with audioBuffer := []} rest).1),
              (⟨tr.text.getD "", st.conversationId, st.provider⟩ : ChatCall) ::
                (sessionLoop B {st with audioBuffer := []} rest).2)
    else if t = "text.send" then
      if String.mk (pyStrip (tx.getD "").data) = "" then sessionLoop B st rest
      else
        (processTurn
            (B.chatStream ⟨String.mk (pyStrip (tx.getD "").data),
              st.conversationId, st.provider⟩)
            st.mode (fun s => B.synth s st.voiceId) ++
            (sessionLoop B st rest).1,
          (⟨String.mk (pyStrip (tx.getD "").data), st.conversationId,
              st.provider⟩ : ChatCall) ::
            (sessionLoop B st rest).2)
    else sessionLoop B st rest

/-- The parsed `session.start` message. -/
structure StartMsg where
  type : Option String
  voice_id : Option String
  provider : Option String
  mode : Option String
  conversation_id : Option String
deriving DecidableEq

/-- Model of `conversation_ws`: handshake then receive loop.  A first message other
than `session.start` is a fatal protocol error; an authentication failure
closes the socket (`validate_ws_token` raises, nothing more is sent).  On
success the `session.created` acknowledgement carries the client-supplied
`conversation_id` (or `""`), and the session locals are initialized from
the start message with the configured defaults. -/
def conversationWs (B : Backend) (sessionId defaultVoiceId defaultProvider :
    String) (authOk : Bool) (start : StartMsg) (rest : List Inbound) :
    List Frame × List ChatCall :=
  if start.type ≠ some "session.start" then
    ([Frame.error "protocol_error" "Expected session.start"], [])
  else if !authOk then ([], [])
  else
    let st : SessionState := {
      conversationId := start.conversation_id
      voiceId := start.voice_id.getD defaultVoiceId
      provider := start.provider.getD defaultProvider
      mode := start.mode.getD "both"
      audioBuffer := [] }
    let o := sessionLoop B st rest
    (Frame.sessionCreated sessionId (start.conversation_id.getD "") :: o.1,
      o.2)

/-- C8: an `audio.end` control message arriving with an empty audio buffer
makes the session emit exactly one `error{code: no_audio}` frame and then
continue processing the remaining inbound messages in the very same state
(the session stays active, nothing else changes). -/
theorem c8_no_audio_error (B : Backend) (st : SessionState)
    (tx : Option String) (rest : List Inbound)
    (h : st.audioBuffer = []) :
    sessionLoop B st (Inbound.control (some "audio.end") tx :: rest) =
      (Frame.error "no_audio" "No audio data received" ::
          (sessionLoop B st rest).1,
        (sessionLoop B st rest).2) := by
  simp [sessionLoop, h]

/-- A do-nothing backend used for concrete witnesses. -/
def nullBackend : Backend :=
  ⟨fun _ => [], fun _ => none, fun _ _ => none⟩

/-- Witness for C8: concrete session state with empty buffer, one
`audio.end` followed by one more (ignored) message. -/
theorem c8_no_audio_error_witness :
    sessionLoop nullBackend ⟨none, "default", "ollama", "both", []⟩
        [Inbound.control (some "audio.end") none,
          Inbound.control (some "ping") none] =
      ([Frame.error "no_audio" "No audio data received"], []) := by
  have h := c8_no_audio_error nullBackend
    ⟨none, "default", "ollama", "both", []⟩ none
    [Inbound.control (some "ping") none] rfl
  rw [h]
  simp [sessionLoop]

/-- Every `chat_stream` call a session makes uses the `conversation_id`
held in the state entering the loop: the loop never updates it. -/
theorem sessionLoop_calls_conversation_id (B : Backend) :
    ∀ (msgs : List Inbound) (st : SessionState),
    ∀ c ∈ (sessionLoop B st msgs).2, c.conversation_id = st.conversationId := by
  intro msgs
  induction msgs with
  | nil => intro st c hc; simp [sessionLoop] at hc
  | cons m rest ih =>
    intro st c hc
    match m with
    | Inbound.audioBytes b =>
      simpa using ih {st with audioBuffer := st.audioBuffer ++ b} c hc
    | Inbound.control ty tx =>
      rw [sessionLoop] at hc
      split at hc
      · simp at hc
      · split at hc
        · exact ih {st with audioBuffer := []} c hc
        · split at hc
          · split at hc
            · exact ih st c hc
            · split at hc
              · exact ih {st with audioBuffer := []} c hc
              · split at hc
                · exact ih {st with audioBuffer := []} c hc
                · rcases List.mem_cons.mp hc with rfl | hc'
                  · rfl
                  · exact ih {st with audioBuffer := []} c hc'
          · split at hc
            · split at hc
              · exact ih st c hc
              · rcases List.mem_cons.mp hc with rfl | hc'
                · rfl
                · exact ih st c hc'
            · exact ih st c hc

/-- C5 counterexample: the chat backend attaches its own conversation id
(`b-42`) to every stream event, yet with a `session.start` carrying no
`conversation_id` the acknowledgement carries `""` and the turn for a
`text.send` is made under `none` — the session's `conversation_id` is
taken from the client, never from the chat backend. -/
def assigningBackend : Backend :=
  ⟨fun _ => [⟨some "done", some "hi", none, some "b-42"⟩],
    fun _ => none, fun _ _ => none⟩

theorem c5_conversation_id_counterexample :
    (conversationWs assigningBackend "sid-1" "default" "ollama" true
        ⟨some "session.start", none, none, some "text", none⟩
        [Inbound.control (some "text.send") (some "hello")]).1.head? =
      some (Frame.sessionCreated "sid-1" "") ∧
    (conversationWs assigningBackend "sid-1" "default" "ollama" true
        ⟨some "session.start", none, none, some "text", none⟩
        [Inbound.control (some "text.send") (some "hello")]).2 =
      [⟨"hello", none, "ollama"⟩] ∧
    (∀ c ∈ (conversationWs assigningBackend "sid-1" "default" "ollama" true
        ⟨some "session.start", none, none, some "text", none⟩
        [Inbound.control (some "text.send") (some "hello")]).2,
      ∀ e ∈ assigningBackend.chatStream c, e.conversation_id = some "b-42") ∧
    ("" : String) ≠ "b-42" ∧ (none : Option String) ≠ some "b-42" := by
  refine ⟨?_, ?_, ?_, by decide, by decide⟩ <;> decide

/-- C5 (amended): for an authenticated session opened by `session.start`,
the `session.created` acknowledgement carries the session id and the
client-supplied `conversation_id` (or `""` when absent), and every
subsequent turn of the connection is made under that same, immutable
`conversation_id`; the chat backend never assigns it. -/
theorem c5_conversation_id_immutable (B : Backend)
    (sid dv dp : String) (start : StartMsg) (rest : List Inbound)
    (h : start.type = some "session.start") :
    (conversationWs B sid dv dp true start rest).1.head? =
      some (Frame.sessionCreated sid (start.conversation_id.getD "")) ∧
    ∀ c ∈ (conversationWs B sid dv dp true start rest).2,
      c.conversation_id = start.conversation_id := by
  unfold conversationWs
  rw [if_neg (by simp [h])]
  simp only [Bool.not_true, if_false]
  exact ⟨rfl, fun c hc =>
    sessionLoop_calls_conversation_id B rest _ c hc⟩

/-- Witness for C5 (amended): concrete session with a client-supplied
conversation id and two turns. -/
theorem c5_conversation_id_witness :
    (conversationWs nullBackend "sid-9" "default" "ollama" true
        ⟨some "session.start", none, none, none, some "conv-7"⟩
        [Inbound.control (some "text.send") (some "one"),
          Inbound.control (some "text.send") (some "two")]).1.head? =
      some (Frame.sessionCreated "sid-9" "conv-7") ∧
    ∀ c ∈ (conversationWs nullBackend "sid-9" "default" "ollama" true
        ⟨some "session.start", none, none, none, some "conv-7"⟩
        [Inbound.control (some "text.send") (some "one"),
          Inbound.control (some "text.send") (some "two")]).2,
      c.conversation_id = some "conv-7" :=
  c5_conversation_id_immutable nullBackend "sid-9" "default" "ollama"
    ⟨some "session.start", none, none, none, some "conv-7"⟩
    [Inbound.control (some "text.send") (some "one"),
      Inbound.control (some "text.send") (some "two")] rfl

/-- The backend driving the C2 counterexample: one token `"a"`, then a
`done` event whose `content` is `"b"`. -/
def mismatchBackend : Backend :=
  ⟨fun _ => [⟨some "token", some "a", none, none⟩,
      ⟨some "done", some "b", none, none⟩],
    fun _ => none, fun _ _ => none⟩

/-- C2 counterexample: in a `mode = "text"` session, a turn whose `done`
event carries content different from the concatenated tokens produces a
`response.end` whose `full_text` (`"b"`) differs from the concatenation of
the `response.text` contents (`"a"`): the source lets the `done` content
override the accumulation. -/
theorem c2_text_mode_counterexample :
    (conversationWs mismatchBackend "sid" "default" "ollama" true
        ⟨some "session.start", none, none, some "text", none⟩
        [Inbound.control (some "text.send") (some "hello")]).1 =
      [Frame.sessionCreated "sid" "", Frame.responseText "a",
        Frame.responseEnd "b"] ∧
    textConcat ((conversationWs mismatchBackend "sid" "default" "ollama" true
        ⟨some "session.start", none, none, some "text", none⟩
        [Inbound.control (some "text.send") (some "hello")]).1) = "a" ∧
    endTexts ((conversationWs mismatchBackend "sid" "default" "ollama" true
        ⟨some "session.start", none, none, some "text", none⟩
        [Inbound.control (some "text.send") (some "hello")]).1) = ["b"] ∧
    ("a" : String) ≠ "b" := by
  refine ⟨?_, ?_, ?_, by decide⟩ <;> decide

/-- Witness for C2 (amended): the full conclusion at a concrete
contract-honouring stream, and the unconditional no-audio conjunct also at
an error-event stream. -/
theorem c2_text_mode_witness :
    (hasAudio (processTurn
        [⟨some "token", some "hi", none, none⟩,
          ⟨some "done", some "hi", none, none⟩] "text" (fun _ => none)) =
      false ∧
    endTexts (processTurn
        [⟨some "token", some "hi", none, none⟩,
          ⟨some "done", some "hi", none, none⟩] "text" (fun _ => none)) =
      [textConcat (processTurn
        [⟨some "token", some "hi", none, none⟩,
          ⟨some "done", some "hi", none, none⟩] "text" (fun _ => none))]) ∧
    hasAudio (processTurn
        [⟨some "token", some "a", none, none⟩,
          ⟨some "error", none, some "boom", none⟩] "text"
        (fun _ => some [1, 2])) = false :=
  ⟨⟨(c2_text_mode_turn
        [⟨some "token", some "hi", none, none⟩,
          ⟨some "done", some "hi", none, none⟩] (fun _ => none)).1,
      (c2_text_mode_turn
        [⟨some "token", some "hi", none, none⟩,
          ⟨some "done", some "hi", none, none⟩] (fun _ => none)).2
        (by decide)⟩,
    (c2_text_mode_turn
        [⟨some "token", some "a", none, none⟩,
          ⟨some "error", none, some "boom", none⟩]
        (fun _ => some [1, 2])).1⟩

/-! ## The agent loop (`pipeline.run_tool_loop`)

The loop sends the current message to the chat backend (`client.chat`,
abstracted as a function of the call index and the message, `none` for a
failed call), updates the conversation id from the response, returns the
response as soon as it carries no tool calls, otherwise executes every
requested tool and loops on the joined results.  `json.loads` on a tool
call's `arguments` string is abstracted by `decodeArgs` (`none` standing
for `json.JSONDecodeError`, which the source does not catch).  The
embedding also counts backend calls and records the responses received. -/

/-- The `function` sub-dict of one requested tool call, as read by the
source (`fn.get("name", "")`, `fn.get("arguments", "{}")`). -/
structure ToolCall where
  name : Option String
  arguments : Option String
deriving DecidableEq

/-- A chat backend response dict: the fields the loop reads.  A missing
`tool_calls` key and an empty list behave identically (both falsy), so the
field is a plain list. -/
structure ChatResponse where
  conversation_id : Option String
  message : Option String
  tool_calls : List ToolCall
deriving DecidableEq

/-- A registered tool: its name and its (async) executable body; a Python
exception inside `execute` becomes `Except.error`. -/
structure Tool where
  name : String
  execute : Unit → Except String String

/-- From `tools/registry.py`: `TOOLS: list[Tool] = []` — the registry ships
empty. -/
def TOOLS : List Tool := []

/-- Model of `get_tool_by_name`: first registered tool with the given name. -/
def get_tool_by_name (toolName : String) : Option Tool :=
  TOOLS.find? (fun t => t.name = toolName)

/-- A Python exception escaping `run_tool_loop`. -/
inductive PyErr where
  /-- Python `UnboundLocalError`: the final `return` reads the loop variable
  `result` which was never assigned (zero loop iterations). -/
  | unboundLocal
  /-- Python `json.JSONDecodeError` from `json.loads` of a tool call's `arguments`,
  not caught by the source. -/
  | jsonDecode
deriving DecidableEq

/-- The tool-execution block of one iteration: for each tool call decode
its arguments (an undecodable string raises), run the tool — substituting
the textual markers for unknown tools and execution failures — and label
the result. -/
def execToolCalls (decodeArgs : String → Option Unit) :
    List ToolCall → Except PyErr (List String)
  | [] => Except.ok []
  | tc :: rest =>
    match decodeArgs (tc.arguments.getD "\x7b\x7d") with
    | none => Except.error PyErr.jsonDecode
    | some args =>
      match execToolCalls decodeArgs rest with
      | Except.error e => Except.error e
      | Except.ok rs =>
        Except.ok (("[" ++ tc.name.getD "" ++ "]: " ++
          (match get_tool_by_name (tc.name.getD "") with
           | some tool =>
             match tool.execute args with
             | Except.ok s => s
             | Except.error e =>
               "Error executing " ++ tc.name.getD "" ++ ": " ++ e
           | none => "Unknown tool: " ++ tc.name.getD "")) :: rs)

/-- The outcome of `run_tool_loop`: the returned dict (or the exception),
the number of chat-backend calls made, and the successful responses
received, in order. -/
structure ToolLoopOut where
  result : Except PyErr ChatResponse
  calls : Nat
  responses : List ChatResponse

/-- The `for i in range(max_iterations)` loop, with `fuel` remaining
iterations, `calls` backend calls made so far, the current message and
conversation id, and the Python local `result` of the previous iteration
(`none` before the first). -/
def toolLoopGo (decodeArgs : String → Option Unit)
    (chatFn : Nat → String → Option ChatResponse) :
    Nat → Nat → String → Option String → Option ChatResponse → ToolLoopOut
  | 0, calls, _, cid, lastResp =>
    match lastResp with
    | none => ⟨Except.error PyErr.unboundLocal, calls, []⟩
    | some r =>
      ⟨Except.ok ⟨some (cid.getD ""), some (r.message.getD ""), []⟩,
        calls, []⟩
  | fuel + 1, calls, msg, cid, _ =>
    match chatFn calls msg with
    | none =>
      ⟨Except.ok ⟨some (cid.getD ""),
          some "I\x27m having trouble connecting to my brain. Please try again.",
          []⟩,
        calls + 1, []⟩
    | some r =>
      if r.tool_calls.isEmpty then ⟨Except.ok r, calls + 1, [r]⟩
      else
        match execToolCalls decodeArgs r.tool_calls with
        | Except.error e => ⟨Except.error e, calls + 1, [r]⟩
        | Except.ok results =>
          ⟨(toolLoopGo decodeArgs chatFn fuel (calls + 1)
              (String.intercalate "\n" results)
              (match r.conversation_id with
               | some c => some c
               | none => cid) (some r)).result,
            (toolLoopGo decodeArgs chatFn fuel (calls + 1)
              (String.intercalate "\n" results)
              (match r.conversation_id with
               | some c => some c
               | none => cid) (some r)).calls,
            r :: (toolLoopGo decodeArgs chatFn fuel (calls + 1)
              (String.intercalate "\n" results)
              (match r.conversation_id with
               | some c => some c
               | none => cid) (some r)).responses⟩

/-- Model of `run_tool_loop` (`max_iterations` defaults to 5 in the source; Python
`range` of a non-positive bound is empty, hence `Int.toNat`). -/
def run_tool_loop (decodeArgs : String → Option Unit)
    (chatFn : Nat → String → Option ChatResponse)
    (initial_message : String) (conversation_id : Option String)
    (max_iterations : Int) : ToolLoopOut :=
  toolLoopGo decodeArgs chatFn max_iterations.toNat 0 initial_message
    conversation_id none

/-- C10: with `max_iterations <= 0` the `for` loop body never runs, and
the final `return` reads the never-assigned local `result`: the call
raises `UnboundLocalError` instead of returning, having made no backend
call. -/
theorem c10_nonpositive_bound_raises (decodeArgs : String → Option Unit)
    (chatFn : Nat → String → Option ChatResponse) (msg : String)
    (cid : Option String) (mi : Int) (h : mi ≤ 0) :
    (run_tool_loop decodeArgs chatFn msg cid mi).result =
      Except.error PyErr.unboundLocal ∧
    (run_tool_loop decodeArgs chatFn msg cid mi).calls = 0 := by
  unfold run_tool_loop
  rw [Int.toNat_of_nonpos h]
  exact ⟨rfl, rfl⟩

/-- Witness for C10 at `max_iterations = 0` and `-1`. -/
theorem c10_nonpositive_bound_raises_witness :
    ((run_tool_loop (fun _ => some ()) (fun _ _ => none) "hi" none 0).result =
        Except.error PyErr.unboundLocal ∧
      (run_tool_loop (fun _ => some ()) (fun _ _ => none) "hi" none 0).calls =
        0) ∧
    ((run_tool_loop (fun _ => some ()) (fun _ _ => none) "hi" none (-1)).result =
        Except.error PyErr.unboundLocal ∧
      (run_tool_loop (fun _ => some ()) (fun _ _ => none) "hi" none (-1)).calls =
        0) :=
  ⟨c10_nonpositive_bound_raises (fun _ => some ()) (fun _ _ => none) "hi" none
      0 (by decide),
    c10_nonpositive_bound_raises (fun _ => some ()) (fun _ _ => none) "hi" none
      (-1) (by decide)⟩

/-- Boolean success test for `Except`. -/
def exceptOk {ε α : Type} : Except ε α → Bool
  | Except.ok _ => true
  | Except.error _ => false

theorem execToolCalls_isOk (decodeArgs : String → Option Unit)
    (tcs : List ToolCall)
    (h : ∀ tc ∈ tcs,
      (decodeArgs (tc.arguments.getD "\x7b\x7d")).isSome = true) :
    exceptOk (execToolCalls decodeArgs tcs) = true := by
  induction tcs with
  | nil => rfl
  | cons tc rest ih =>
    obtain ⟨v, hv⟩ := Option.isSome_iff_exists.mp (h tc (by simp))
    have hih := ih (fun x hx => h x (by simp [hx]))
    rw [execToolCalls, hv]
    cases hr : execToolCalls decodeArgs rest with
    | error e => rw [hr] at hih; simp [exceptOk] at hih
    | ok rs => simp [exceptOk]

theorem execToolCalls_ok (decodeArgs : String → Option Unit)
    (tcs : List ToolCall)
    (h : ∀ tc ∈ tcs,
      (decodeArgs (tc.arguments.getD "\x7b\x7d")).isSome = true) :
    ∃ rs, execToolCalls decodeArgs tcs = Except.ok rs := by
  have := execToolCalls_isOk decodeArgs tcs h
  cases hr : execToolCalls decodeArgs tcs with
  | error e => rw [hr] at this; simp [exceptOk] at this
  | ok rs => exact ⟨rs, rfl⟩

/-- Main induction for C3/C6: against a backend that always responds and
always requests tool calls with decodable arguments, `fuel + 1` remaining
iterations consume exactly `fuel + 1` backend calls and end by returning a
dict whose `message` is the last response's `message` field (defaulted to
`""`). -/
theorem toolLoopGo_all_tools (decodeArgs : String → Option Unit)
    (chatFn : Nat → String → Option ChatResponse)
    (hchat : ∀ i m, ∃ r, chatFn i m = some r ∧ r.tool_calls ≠ [])
    (hdec : ∀ i m r tc, chatFn i m = some r → tc ∈ r.tool_calls →
      (decodeArgs (tc.arguments.getD "\x7b\x7d")).isSome = true) :
    ∀ (n calls : Nat) (msg : String) (cid : Option String)
      (last : Option ChatResponse),
    (toolLoopGo decodeArgs chatFn (n + 1) calls msg cid last).calls =
      calls + (n + 1) ∧
    ∃ r, (toolLoopGo decodeArgs chatFn
        (n + 1) calls msg cid last).responses.getLast? = some r ∧
      ∃ cf, (toolLoopGo decodeArgs chatFn
          (n + 1) calls msg cid last).result =
        Except.ok ⟨cf, some (r.message.getD ""), []⟩ := by
  intro n
  induction n with
  | zero =>
    intro calls msg cid last
    obtain ⟨r, hr, hrt⟩ := hchat calls msg
    obtain ⟨rs, hrs⟩ := execToolCalls_ok decodeArgs r.tool_calls
      (fun tc htc => hdec calls msg r tc hr htc)
    have hne : r.tool_calls.isEmpty = false := by
      simpa [List.isEmpty_iff] using hrt
    rw [toolLoopGo, hr]
    simp only [hne, Bool.false_eq_true, if_false, hrs, toolLoopGo]
    exact ⟨trivial, r, rfl, some ((match r.conversation_id with
      | some c => some c
      | none => cid).getD ""), rfl⟩
  | succ m ih =>
    intro calls msg cid last
    obtain ⟨r, hr, hrt⟩ := hchat calls msg
    obtain ⟨rs, hrs⟩ := execToolCalls_ok decodeArgs r.tool_calls
      (fun tc htc => hdec calls msg r tc hr htc)
    have hne : r.tool_calls.isEmpty = false := by
      simpa [List.isEmpty_iff] using hrt
    rw [toolLoopGo, hr]
    simp only [hne, Bool.false_eq_true, if_false, hrs]
    obtain ⟨hcalls, r', hr', cf, hres⟩ := ih (calls + 1)
      (String.intercalate "\n" rs)
      (match r.conversation_id with
       | some c => some c
       | none => cid) (some r)
    refine ⟨by rw [hcalls]; omega, r', ?_, cf, hres⟩
    cases hresp : (toolLoopGo decodeArgs chatFn (m + 1) (calls + 1)
        (String.intercalate "\n" rs)
        (match r.conversation_id with
         | some c => some c
         | none => cid) (some r)).responses with
    | nil => rw [hresp] at hr'; simp at hr'
    | cons b t =>
      rw [hresp] at hr'
      rw [List.getLast?_cons_cons]
      exact hr'

/-- The chat backend used in the C3 counterexample: it always answers and
every answer requests one tool call (with well-formed arguments). -/
def loopingBackend : Nat → String → Option ChatResponse :=
  fun _ _ => some ⟨some "c1", some "", [⟨some "t", none⟩]⟩

/-- The chat backend whose tool-call carries arguments that are not valid
JSON. -/
def badArgsBackend : Nat → String → Option ChatResponse :=
  fun _ _ => some ⟨some "c1", some "", [⟨some "t", some "not json"⟩]⟩

/-- A model of `json.loads` that accepts `"{}"` and rejects `"not json"`. -/
def simpleDecode : String → Option Unit :=
  fun s => if s = "\x7b\x7d" then some () else none

/-- C3 counterexample: two backends whose every response carries a
non-empty `tool_calls` list, against which `run_tool_loop` raises instead
of returning a textual result — with `max_iterations = 0` it raises
`UnboundLocalError` (and makes 0 calls), and with undecodable tool-call
arguments it raises `json.JSONDecodeError` at the default
`max_iterations = 5`. -/
theorem c3_tool_loop_counterexample :
    ((∀ i m r, loopingBackend i m = some r → r.tool_calls ≠ []) ∧
      (run_tool_loop simpleDecode loopingBackend "go" none 0).result =
        Except.error PyErr.unboundLocal) ∧
    ((∀ i m r, badArgsBackend i m = some r → r.tool_calls ≠ []) ∧
      (run_tool_loop simpleDecode badArgsBackend "go" none 5).result =
        Except.error PyErr.jsonDecode) := by
  refine ⟨⟨?_, rfl⟩, ⟨?_, ?_⟩⟩
  · intro i m r h
    injection h with h'
    rw [← h']
    simp [loopingBackend]
  · intro i m r h
    injection h with h'
    rw [← h']
    simp [badArgsBackend]
  · rfl

/-- C3 (amended): provided `max_iterations >= 1` and every requested
tool call's `arguments` string is valid JSON, `run_tool_loop` against a
backend that always responds with a non-empty `tool_calls` list makes
exactly `max_iterations` backend calls, terminates, and returns a dict
carrying a textual `message` without raising. -/
theorem c3_tool_loop_bounded (decodeArgs : String → Option Unit)
    (chatFn : Nat → String → Option ChatResponse) (msg : String)
    (cid : Option String) (mi : Int) (hmi : 1 ≤ mi)
    (hchat : ∀ i m, ∃ r, chatFn i m = some r ∧ r.tool_calls ≠ [])
    (hdec : ∀ i m r tc, chatFn i m = some r → tc ∈ r.tool_calls →
      (decodeArgs (tc.arguments.getD "\x7b\x7d")).isSome = true) :
    (run_tool_loop decodeArgs chatFn msg cid mi).calls = mi.toNat ∧
    ∃ resp, (run_tool_loop decodeArgs chatFn msg cid mi).result =
      Except.ok resp ∧ resp.message.isSome = true := by
  obtain ⟨n, hn⟩ : ∃ n, mi.toNat = n + 1 := ⟨mi.toNat - 1, by omega⟩
  unfold run_tool_loop
  rw [hn]
  obtain ⟨hcalls, r, -, cf, hres⟩ :=
    toolLoopGo_all_tools decodeArgs chatFn hchat hdec n 0 msg cid none
  exact ⟨by rw [hcalls]; omega,
    ⟨cf, some (r.message.getD ""), []⟩, hres, rfl⟩

/-- Witness for C3 (amended) at `max_iterations = 2` against
`loopingBackend`. -/
theorem c3_tool_loop_bounded_witness :
    (run_tool_loop simpleDecode loopingBackend "go" none 2).calls =
      (2 : Int).toNat ∧
    ∃ resp, (run_tool_loop simpleDecode loopingBackend "go" none 2).result =
      Except.ok resp ∧ resp.message.isSome = true :=
  c3_tool_loop_bounded simpleDecode loopingBackend "go" none 2 (by decide)
    (fun i m => ⟨⟨some "c1", some "", [⟨some "t", none⟩]⟩, rfl, by decide⟩)
    (fun i m r tc h htc => by
      injection h with h'
      rw [← h'] at htc
      simp only [loopingBackend] at htc
      simp at htc
      rw [htc]
      rfl)

/-- C6: when the iteration bound is exhausted with every backend response
still carrying tool calls (backend always responds, arguments decodable,
`max_iterations >= 1`), `run_tool_loop` returns a dict whose `message` is
the last backend response's `message` field defaulted to `""` — possibly
the empty string — rather than iterating further or raising. -/
theorem c6_bound_returns_last_message (decodeArgs : String → Option Unit)
    (chatFn : Nat → String → Option ChatResponse) (msg : String)
    (cid : Option String) (mi : Int) (hmi : 1 ≤ mi)
    (hchat : ∀ i m, ∃ r, chatFn i m = some r ∧ r.tool_calls ≠ [])
    (hdec : ∀ i m r tc, chatFn i m = some r → tc ∈ r.tool_calls →
      (decodeArgs (tc.arguments.getD "\x7b\x7d")).isSome = true) :
    ∃ r, (run_tool_loop
        decodeArgs chatFn msg cid mi).responses.getLast? = some r ∧
      ∃ cf, (run_tool_loop decodeArgs chatFn msg cid mi).result =
        Except.ok ⟨cf, some (r.message.getD ""), []⟩ := by
  obtain ⟨n, hn⟩ : ∃ n, mi.toNat = n + 1 := ⟨mi.toNat - 1, by omega⟩
  unfold run_tool_loop
  rw [hn]
  obtain ⟨-, r, hr, cf, hres⟩ :=
    toolLoopGo_all_tools decodeArgs chatFn hchat hdec n 0 msg cid none
  exact ⟨r, hr, cf, hres⟩

/-- Witness for C6 against a backend whose responses carry no `message`
field: the returned text is the empty string. -/
theorem c6_bound_returns_last_message_witness :
    ∃ r, ((run_tool_loop simpleDecode
        (fun _ _ => some ⟨none, none, [⟨some "t", none⟩]⟩) "go" none
          1).responses).getLast? = some r ∧
      ∃ cf, ((run_tool_loop simpleDecode
          (fun _ _ => some ⟨none, none, [⟨some "t", none⟩]⟩) "go" none
            1).result) = Except.ok ⟨cf, some (r.message.getD ""), []⟩ :=
  c6_bound_returns_last_message simpleDecode
    (fun _ _ => some ⟨none, none, [⟨some "t", none⟩]⟩) "go" none 1
    (by decide)
    (fun i m => ⟨⟨none, none, [⟨some "t", none⟩]⟩, rfl, by decide⟩)
    (fun i m r tc h htc => by
      injection h with h'
      rw [← h'] at htc
      simp at htc
      rw [htc]
      rfl)

/-! ## Health probes (`ServiceClient.check_service` / `check_all_services`)

A probe's observable outcome is `some status` (an HTTP response) or `none`
(any exception: connection error, timeout, ...).  `check_all_services`
gathers the three independent probes; `asyncio.gather` binds each result
to its positional slot, so the completion order cannot influence the
returned map. -/

/-- Model of `check_service`: `"healthy"` iff the probe returned status 200. -/
def check_service (outcome : Option Nat) : String :=
  match outcome with
  | some code => if code = 200 then "healthy" else "unhealthy"
  | none => "unhealthy"

/-- The map `{"stt": _, "tts": _, "brain": _}`. -/
structure HealthReport where
  stt : String
  tts : String
  brain : String
deriving DecidableEq

/-- Model of `check_all_services`: the three probes, gathered positionally. -/
def check_all_services (oStt oTts oBrain : Option Nat) : HealthReport :=
  ⟨check_service oStt, check_service oTts, check_service oBrain⟩

theorem check_service_fail {o : Option Nat} (h : o ≠ some 200) :
    check_service o = "unhealthy" := by
  match o with
  | none => rfl
  | some code =>
    have : code ≠ 200 := fun hc => h (by rw [hc])
    simp [check_service, this]

theorem check_service_ok : check_service (some 200) = "healthy" := rfl

/-- C7: whenever exactly one backend's probe fails (exception or non-200
status) and the other two return status 200, the map reports `unhealthy`
for exactly that backend and `healthy` for the other two — positional
gathering makes this independent of probe completion order. -/
theorem c7_check_all_services (oStt oTts oBrain : Option Nat) :
    (oStt ≠ some 200 → oTts = some 200 → oBrain = some 200 →
      check_all_services oStt oTts oBrain =
        ⟨"unhealthy", "healthy", "healthy"⟩) ∧
    (oStt = some 200 → oTts ≠ some 200 → oBrain = some 200 →
      check_all_services oStt oTts oBrain =
        ⟨"healthy", "unhealthy", "healthy"⟩) ∧
    (oStt = some 200 → oTts = some 200 → oBrain ≠ some 200 →
      check_all_services oStt oTts oBrain =
        ⟨"healthy", "healthy", "unhealthy"⟩) := by
  refine ⟨?_, ?_, ?_⟩ <;> intro h1 h2 h3 <;>
    simp only [check_all_services] <;>
    first
    | rw [check_service_fail h1, h2, h3, check_service_ok]
    | rw [h1, check_service_fail h2, h3, check_service_ok]
    | rw [h1, h2, check_service_fail h3, check_service_ok]

/-- Witness for C7: a connection failure on STT, a 500 from TTS, a timeout
on Brain — each with the other two healthy. -/
theorem c7_check_all_services_witness :
    check_all_services none (some 200) (some 200) =
      ⟨"unhealthy", "healthy", "healthy"⟩ ∧
    check_all_services (some 200) (some 500) (some 200) =
      ⟨"healthy", "unhealthy", "healthy"⟩ ∧
    check_all_services (some 200) (some 200) none =
      ⟨"healthy", "healthy", "unhealthy"⟩ :=
  ⟨(c7_check_all_services none (some 200) (some 200)).1
      (by decide) rfl rfl,
    (c7_check_all_services (some 200) (some 500) (some 200)).2.1
      rfl (by decide) rfl,
    (c7_check_all_services (some 200) (some 200) none).2.2
      rfl rfl (by decide)⟩

/-! ## The GPU concurrency gates (`_stt_semaphore`, `_tts_semaphore`)

Each gate is `asyncio.Semaphore(1)`; `transcribe` and `synthesize` wrap
their single backend HTTP request in `async with <gate>`, so a task posts
its request only while holding the gate and releases it unconditionally
afterwards.  The gate is modelled as an interleaved transition system over
the cooperative scheduler's atomic steps: a task acquires only when the
counter is positive, holds while its request is in flight, then releases.
Time is trace order; two calls' request windows overlap iff some reachable
state has both tasks holding. -/

/-- Where one `transcribe`/`synthesize` call stands relative to its gate. -/
inductive GatePhase where
  /-- before `async with` granted the semaphore -/
  | waiting
  /-- inside the `async with` block: the backend request is in flight -/
  | holding
  /-- after the block: the semaphore was released -/
  | done
deriving DecidableEq

/-- The shared state of one capability gate: the semaphore counter and
each task's phase. -/
structure GateState (ι : Type) where
  sem : Nat
  phase : ι → GatePhase

/-- Initial state: `asyncio.Semaphore(1)` with all calls still to enter. -/
def gateInit (ι : Type) : GateState ι :=
  ⟨1, fun _ => GatePhase.waiting⟩

/-- Atomic scheduler steps: `acquire` succeeds only when the counter is
positive and decrements it; `release` increments it unconditionally when
the task leaves the block (also on failure, by `async with`). -/
inductive GateStep {ι : Type} [DecidableEq ι] :
    GateState ι → GateState ι → Prop where
  | acquire (s : GateState ι) (t : ι) :
      s.phase t = GatePhase.waiting → 1 ≤ s.sem →
      GateStep s ⟨s.sem - 1, Function.update s.phase t GatePhase.holding⟩
  | release (s : GateState ι) (t : ι) :
      s.phase t = GatePhase.holding →
      GateStep s ⟨s.sem + 1, Function.update s.phase t GatePhase.done⟩

/-- States an interleaving of gate-protected calls can reach. -/
def GateReachable {ι : Type} [DecidableEq ι] (s : GateState ι) : Prop :=
  Relation.ReflTransGen GateStep (gateInit ι) s

/-- The gate invariant: counter 1 and nobody holding, or counter 0 and a
unique holder. -/
def GateInv {ι : Type} (s : GateState ι) : Prop :=
  (s.sem = 1 ∧ ∀ t, s.phase t ≠ GatePhase.holding) ∨
    (s.sem = 0 ∧ ∃ t, s.phase t = GatePhase.holding ∧
      ∀ u, s.phase u = GatePhase.holding → u = t)

theorem gateInv_init (ι : Type) : GateInv (gateInit ι) :=
  Or.inl ⟨rfl, fun _ => by simp [gateInit]⟩

theorem gateInv_step {ι : Type} [DecidableEq ι] {s s' : GateState ι}
    (hinv : GateInv s) (hstep : GateStep s s') : GateInv s' := by
  cases hstep with
  | acquire t hw hsem =>
    rcases hinv with ⟨hs1, hnone⟩ | ⟨hs0, -⟩
    · refine Or.inr ⟨by simp [hs1], t, ?_, ?_⟩
      · show Function.update s.phase t GatePhase.holding t = GatePhase.holding
        simp
      · intro u hu
        by_cases hut : u = t
        · exact hut
        · exfalso
          apply hnone u
          have hu' : Function.update s.phase t GatePhase.holding u =
              GatePhase.holding := hu
          rwa [Function.update_noteq hut] at hu'
    · omega
  | release t hh =>
    rcases hinv with ⟨-, hnone⟩ | ⟨hs0, u, hu, huniq⟩
    · exact absurd hh (hnone t)
    · refine Or.inl ⟨by simp [hs0], fun v => ?_⟩
      intro hv
      have hv' : Function.update s.phase t GatePhase.done v =
          GatePhase.holding := hv
      by_cases hvt : v = t
      · rw [hvt, Function.update_same] at hv'
        exact absurd hv' (by simp)
      · rw [Function.update_noteq hvt] at hv'
        exact hvt ((huniq v hv').trans (huniq t hh).symm)

theorem gateInv_reachable {ι : Type} [DecidableEq ι] {s : GateState ι}
    (h : GateReachable s) : GateInv s := by
  induction h with
  | refl => exact gateInv_init ι
  | tail _ hstep ih => exact gateInv_step ih hstep

/-- C9: at every reachable state of a capacity-one gate, at most one call
is inside its `async with` block — so within one capability (`transcribe`
under `_stt_semaphore`, and independently `synthesize` under
`_tts_semaphore`) no two concurrent calls ever have their backend requests
in flight at once, system-wide across all sessions. -/
theorem c9_gate_mutual_exclusion {ι : Type} [DecidableEq ι]
    (s : GateState ι) (h : GateReachable s) (t u : ι)
    (ht : s.phase t = GatePhase.holding)
    (hu : s.phase u = GatePhase.holding) : t = u := by
  rcases gateInv_reachable h with ⟨-, hnone⟩ | ⟨-, v, -, huniq⟩
  · exact absurd ht (hnone t)
  · rw [huniq t ht, huniq u hu]

/-- Witness for C9: after one concrete `acquire` step by task `true`
(two tasks modelled by `Bool`), the holding task is unique. -/
theorem c9_gate_mutual_exclusion_witness : true = true :=
  c9_gate_mutual_exclusion
    ⟨(gateInit Bool).sem - 1,
      Function.update (gateInit Bool).phase true GatePhase.holding⟩
    (Relation.ReflTransGen.single
      (GateStep.acquire (gateInit Bool) true rfl (by simp [gateInit])))
    true true (by simp [Function.update]) (by simp [Function.update])

end Dolores
